import Mathlib

/-!
Verification development for the transcript state engine of the
RealTime Meet Translator application (the useTranslator hook in
src/app/src/App.tsx).  The hook is a single-threaded, event-driven
state machine: a cloud speech SDK delivers recognizing (interim),
recognized (final) and canceled callbacks; a 100 ms interval timer
polls for silence; the UI invokes start, stop and clearTranscript.
We embed the mutable React state and refs as one record, each handler
as a pure state transformer, and the whole hook as a step function
over an event alphabet.  Clock readings (Date.now values, in
milliseconds) are modelled as naturals; the display timestamp string
produced by toLocaleTimeString is modelled by the clock value it is
derived from.
-/

namespace RTMT

/-- The status values of the hook: type TranslatorStatus in App.tsx. -/
inductive TranslatorStatus
  | Idle
  | Listening
  | Translating
  | Error
deriving DecidableEq, Repr

/-- interface TranscriptItem: id and display timestamp both come from
Date.now at commit time, so both are modelled as the clock value. -/
structure TranscriptItem where
  id : Nat
  timestamp : Nat
  text : String
deriving DecidableEq, Repr

/-- The complete mutable state of the useTranslator hook: the seven
useState cells followed by the refs that carry engine state
(recognizerRef modelled by whether a recognizer is owned,
silenceTimerRef by whether the interval timer is scheduled, and the
four bookkeeping refs). -/
structure TranslatorState where
  status : TranslatorStatus
  transcript : List TranscriptItem
  interimText : String
  lastCommitted : String
  errorMessage : Option String
  silenceCommitted : Bool
  latencyMs : Option Nat
  recognizerActive : Bool
  timerActive : Bool
  lastUpdateTime : Nat
  lastCommittedTextRef : String
  currentInterim : String
  lastEventTime : Nat
deriving DecidableEq, Repr

/-- SILENCE_MS constant from App.tsx. -/
def SILENCE_MS : Nat := 700

/-- The character class of the regex /[.?!…。？！]$/ used by the
silence committer. -/
def SENTENCE_TERMINALS : List Char := ['.', '?', '!', '…', '。', '？', '！']

/-- Embedding of the JavaScript regex test /[.?!…。？！]$/.test t:
true when the last character of t is a sentence terminal. -/
def endsWithSentenceTerminal (t : String) : Bool :=
  match t.data.getLast? with
  | some c => SENTENCE_TERMINALS.contains c
  | none => false

/-- Embedding of the JavaScript String.prototype.trim call: drop
whitespace from both ends.  Defined on the character list so that it
reduces inside the kernel. -/
def jsTrim (s : String) : String :=
  String.mk (((s.data.dropWhile Char.isWhitespace).reverse.dropWhile Char.isWhitespace).reverse)

/-- The punctuation step of the silence committer: if textToCommit
does not already end in a sentence terminal, append a period. -/
def addPunctuation (t : String) : String :=
  if endsWithSentenceTerminal t then t else t ++ "."

/-- The body of the 100 ms interval callback in the silence detection
effect (App.tsx, silence detection useEffect): commit the current
interim text when no update arrived for SILENCE_MS, the trimmed
interim is non-empty and differs from the last committed text. -/
def checkSilence (now : Nat) (s : TranslatorState) : TranslatorState :=
  let timeSinceUpdate := now - s.lastUpdateTime
  let currentInterim := s.currentInterim
  if SILENCE_MS ≤ timeSinceUpdate ∧
      0 < (jsTrim currentInterim).length ∧
      jsTrim currentInterim ≠ s.lastCommittedTextRef then
    let textToCommit := addPunctuation (jsTrim currentInterim)
    { s with
      transcript := s.transcript ++ [{ id := now, timestamp := now, text := textToCommit }],
      lastCommitted := textToCommit,
      interimText := "",
      currentInterim := "",
      lastCommittedTextRef := textToCommit,
      silenceCommitted := true,
      lastUpdateTime := now }
  else s

/-- The recognizing handler (interim events), for an event that
carries a translation text (the reason is TranslatingSpeech and the
text lookup succeeded, i.e. text is non-empty).  It may record a
latency sample from the delta to the previous recognizing event, then
updates the live line; it also keeps the interval timer scheduled,
reflecting the status effect that owns the timer while status is
Listening or Translating. -/
def onRecognizing (text : String) (now : Nat) (s : TranslatorState) : TranslatorState :=
  if text = "" then s
  else
    let s1 :=
      if 0 < s.lastEventTime then
        if 50 ≤ now - s.lastEventTime ∧ now - s.lastEventTime ≤ 2000 then
          { s with latencyMs := some (now - s.lastEventTime) }
        else s
      else s
    { s1 with
      lastEventTime := now,
      status := TranslatorStatus.Translating,
      timerActive := true,
      interimText := text,
      currentInterim := text,
      lastUpdateTime := now }

/-- The recognized handler (final events), for an event that carries a
translation text: append a transcript entry unless the text is empty
or its trimmed form equals the stored last committed text.  Note that
the source stores the raw, untrimmed text in both lastCommitted and
lastCommittedTextRef. -/
def onRecognized (text : String) (now : Nat) (s : TranslatorState) : TranslatorState :=
  if text ≠ "" ∧ jsTrim text ≠ s.lastCommittedTextRef then
    { s with
      transcript := s.transcript ++ [{ id := now, timestamp := now, text := text }],
      lastCommitted := text,
      interimText := "",
      currentInterim := "",
      lastCommittedTextRef := text,
      lastUpdateTime := now }
  else s

/-- cleanupRecognizer from App.tsx: clear the interval timer, release
the recognizer and the audio resources, reset the live interim ref. -/
def cleanupRecognizer (s : TranslatorState) : TranslatorState :=
  { s with
    timerActive := false,
    recognizerActive := false,
    currentInterim := "" }

/-- stopTranslator from App.tsx: cleanup, then status Idle, clear the
interim line, clear the latency sample and reset the previous event
timestamp. -/
def stopTranslator (s : TranslatorState) : TranslatorState :=
  let s1 := cleanupRecognizer s
  { s1 with
    status := TranslatorStatus.Idle,
    interimText := "",
    latencyMs := none,
    lastEventTime := 0 }

/-- The canceled handler: when the cancellation reason is Error, set
the error message and run the implicit stop; otherwise do nothing. -/
def onCanceled (isError : Bool) (errorDetails : String) (s : TranslatorState) : TranslatorState :=
  if isError then
    stopTranslator { s with errorMessage := some ("Speech Error: " ++ errorDetails) }
  else s

/-- clearTranscript from App.tsx. -/
def clearTranscript (s : TranslatorState) : TranslatorState :=
  { s with
    transcript := [],
    interimText := "",
    lastCommitted := "",
    lastCommittedTextRef := "",
    currentInterim := "" }

/-- resetError from App.tsx. -/
def resetError (s : TranslatorState) : TranslatorState :=
  { s with errorMessage := none }

/-- Outcome of the asynchronous body of startTranslator, abstracting
the external collaborators: the SpeechSDK global may be missing, the
token fetch or recognizer construction may throw (the catch branch),
or everything succeeds and a recognizer is owned. -/
inductive StartOutcome
  | sdkMissing
  | startFailed
  | success
deriving DecidableEq, Repr

/-- startTranslator from App.tsx.  The guard returns at once when a
recognizer is already owned.  Otherwise the handler resets the live
state, and depending on the outcome either ends in Error (SDK missing,
or the catch branch which also runs cleanupRecognizer) or owns a
recognizer with status Listening; the timer field follows the status
effect that schedules the interval exactly while status is Listening
or Translating. -/
def startTranslator (now : Nat) (o : StartOutcome) (s : TranslatorState) : TranslatorState :=
  if s.recognizerActive then s
  else if o = StartOutcome.sdkMissing then
    { s with
      errorMessage := some "Speech SDK not loaded. Check your internet connection.",
      status := TranslatorStatus.Error,
      timerActive := false }
  else
    let s1 := { s with
      status := TranslatorStatus.Listening,
      timerActive := true,
      errorMessage := none,
      interimText := "",
      lastUpdateTime := now,
      lastCommittedTextRef := "",
      currentInterim := "" }
    if o = StartOutcome.success then
      { s1 with recognizerActive := true }
    else
      cleanupRecognizer { s1 with
        errorMessage := some "Failed to start translation",
        status := TranslatorStatus.Error }

/-- The event alphabet of the engine: SDK callbacks (delivered only
while a recognizer is owned), the poll tick (fires only while the
interval timer is scheduled), the UI operations, and the 1500 ms
timeout that clears the silence indicator. -/
inductive Event
  | start : Nat → StartOutcome → Event
  | interim : String → Nat → Event
  | final : String → Nat → Event
  | canceled : Bool → String → Event
  | poll : Nat → Event
  | stop : Event
  | clear : Event
  | resetErr : Event
  | silenceOff : Event
deriving DecidableEq, Repr

/-- One step of the single-threaded engine.  SDK callbacks are guarded
by ownership of a recognizer (callbacks are detached by cleanup), and
the poll tick is guarded by the interval timer being scheduled
(clearInterval cancels it). -/
def step (e : Event) (s : TranslatorState) : TranslatorState :=
  match e with
  | Event.start now o => startTranslator now o s
  | Event.interim text now => if s.recognizerActive then onRecognizing text now s else s
  | Event.final text now => if s.recognizerActive then onRecognized text now s else s
  | Event.canceled isErr details => if s.recognizerActive then onCanceled isErr details s else s
  | Event.poll now => if s.timerActive then checkSilence now s else s
  | Event.stop => stopTranslator s
  | Event.clear => clearTranscript s
  | Event.resetErr => resetError s
  | Event.silenceOff => { s with silenceCommitted := false }

/-- The initial state of the hook: the useState initial values and
zero-initialised refs. -/
def initState : TranslatorState :=
  { status := TranslatorStatus.Idle,
    transcript := [],
    interimText := "",
    lastCommitted := "",
    errorMessage := none,
    silenceCommitted := false,
    latencyMs := none,
    recognizerActive := false,
    timerActive := false,
    lastUpdateTime := 0,
    lastCommittedTextRef := "",
    currentInterim := "",
    lastEventTime := 0 }

/-- Run a trace of events from a given state. -/
def runFrom (s : TranslatorState) : List Event → TranslatorState
  | [] => s
  | e :: tr => runFrom (step e s) tr

/-- Run a trace of events from the initial state. -/
def run (tr : List Event) : TranslatorState :=
  runFrom initState tr

/-- A state is reachable when some trace of events produces it. -/
def Reachable (s : TranslatorState) : Prop :=
  ∃ tr, run tr = s

/-- True exactly on the statuses during which the silence detection
effect keeps the interval timer scheduled. -/
def isActiveStatus : TranslatorStatus → Bool
  | TranslatorStatus.Listening => true
  | TranslatorStatus.Translating => true
  | _ => false

/-- The clock reading carried by an event, when it has one. -/
def eventTimes : Event → List Nat
  | Event.start now _ => [now]
  | Event.interim _ now => [now]
  | Event.final _ now => [now]
  | Event.poll now => [now]
  | _ => []

/-- All clock readings of a trace, in order. -/
def traceTimes (tr : List Event) : List Nat :=
  (tr.map eventTimes).flatten

/-- The state invariant maintained by every step: the interval timer
is scheduled exactly while the status is active; without an owned
recognizer the status is inactive, the previous event timestamp is
zero and there is no latency sample; and the rendered interim line
always mirrors the interim ref. -/
def Inv (s : TranslatorState) : Prop :=
  s.timerActive = isActiveStatus s.status ∧
  (s.recognizerActive = false → isActiveStatus s.status = false) ∧
  (s.recognizerActive = false → s.lastEventTime = 0 ∧ s.latencyMs = none) ∧
  s.interimText = s.currentInterim

/-- A string has positive length exactly when it is not the empty
string. -/
theorem string_length_pos_iff (t : String) : 0 < t.length ↔ t ≠ "" := by
  obtain ⟨l⟩ := t
  simp [String.length, String.ext_iff]
  exact List.length_pos

/-- The initial state satisfies the invariant. -/
theorem inv_init : Inv initState := by
  refine ⟨rfl, fun _ => rfl, fun _ => ⟨rfl, rfl⟩, rfl⟩

/-- Every step of the engine preserves the invariant. -/
theorem inv_step (e : Event) (s : TranslatorState) (h : Inv s) : Inv (step e s) := by
  obtain ⟨h1, h2, h3, h4⟩ := h
  cases e <;>
    simp only [step, startTranslator, onRecognizing, onRecognized, onCanceled, stopTranslator,
      cleanupRecognizer, checkSilence, clearTranscript, resetError, Inv] <;>
    (try split_ifs) <;>
    simp_all [isActiveStatus]

/-- Running any trace from an invariant state stays invariant. -/
theorem inv_runFrom (tr : List Event) (s : TranslatorState) (h : Inv s) :
    Inv (runFrom s tr) := by
  induction tr generalizing s with
  | nil => exact h
  | cons e tr ih => exact ih (step e s) (inv_step e s h)

/-- Every reachable state satisfies the invariant. -/
theorem reachable_inv (s : TranslatorState) (h : Reachable s) : Inv s := by
  obtain ⟨tr, rfl⟩ := h
  exact inv_runFrom tr initState inv_init

/-- A final event that does not qualify (empty text, or trimmed text
equal to the stored last committed text) leaves the state unchanged. -/
theorem onRecognized_skip (t : String) (now : Nat) (s : TranslatorState)
    (h : ¬ (t ≠ "" ∧ jsTrim t ≠ s.lastCommittedTextRef)) :
    onRecognized t now s = s := by
  simp only [onRecognized, if_neg h]

/-- C1: on a poll tick, a silence commit occurs if and only if at
least 700 ms passed since the last update, the trimmed interim text is
non-empty and it differs from the last committed text; on trigger the
committed text is the trimmed interim with a period appended exactly
when it does not already end in one of the sentence terminals
. ? ! … 。 ？ ！; and a tick less than 700 ms after the last update
changes nothing at all, so no commit occurs while updates keep
arriving with gaps below 700 ms. -/
theorem checkSilence_commit_iff (s : TranslatorState) (now : Nat) (h : Reachable s) :
    ((checkSilence now s).transcript ≠ s.transcript ↔
      (700 ≤ now - s.lastUpdateTime ∧ jsTrim s.interimText ≠ "" ∧
        jsTrim s.interimText ≠ s.lastCommittedTextRef)) ∧
    ((700 ≤ now - s.lastUpdateTime ∧ jsTrim s.interimText ≠ "" ∧
        jsTrim s.interimText ≠ s.lastCommittedTextRef) →
      (checkSilence now s).transcript = s.transcript ++
        [{ id := now, timestamp := now,
           text := if endsWithSentenceTerminal (jsTrim s.interimText) then jsTrim s.interimText
                   else jsTrim s.interimText ++ "." }]) ∧
    (now - s.lastUpdateTime < 700 → checkSilence now s = s) := by
  have hic : s.interimText = s.currentInterim := (reachable_inv s h).2.2.2
  have hlen : 0 < (jsTrim s.currentInterim).length ↔ jsTrim s.currentInterim ≠ "" :=
    string_length_pos_iff (jsTrim s.currentInterim)
  rw [hic]
  by_cases hc : SILENCE_MS ≤ now - s.lastUpdateTime ∧
      0 < (jsTrim s.currentInterim).length ∧
      jsTrim s.currentInterim ≠ s.lastCommittedTextRef
  · refine ⟨⟨fun _ => ⟨hc.1, hlen.mp hc.2.1, hc.2.2⟩, fun _ => ?_⟩, fun _ => ?_, fun hlt => ?_⟩
    · simp only [checkSilence, if_pos hc]
      intro heq
      have hl := congrArg List.length heq
      simp at hl
    · simp only [checkSilence, if_pos hc, addPunctuation]
    · exact absurd (show (700 : Nat) ≤ now - s.lastUpdateTime from hc.1) (by omega)
  · have hcn : ¬ (700 ≤ now - s.lastUpdateTime ∧ jsTrim s.currentInterim ≠ "" ∧
        jsTrim s.currentInterim ≠ s.lastCommittedTextRef) := by
      intro hx
      exact hc ⟨hx.1, hlen.mpr hx.2.1, hx.2.2⟩
    have hid : checkSilence now s = s := by
      simp only [checkSilence, if_neg hc]
    refine ⟨?_, fun hx => absurd hx hcn, fun _ => hid⟩
    rw [hid]
    simp only [ne_eq, not_true_eq_false, false_iff]
    exact hcn

/-- C1 witness: in the reachable state where the live line became
"hello world" at clock 100, the tick at clock 900 commits. -/
theorem checkSilence_commit_iff_witness :
    (checkSilence 900 (run [Event.start 0 StartOutcome.success,
        Event.interim "hello world" 100])).transcript ≠
      (run [Event.start 0 StartOutcome.success, Event.interim "hello world" 100]).transcript :=
  (checkSilence_commit_iff
      (run [Event.start 0 StartOutcome.success, Event.interim "hello world" 100]) 900
      ⟨[Event.start 0 StartOutcome.success, Event.interim "hello world" 100], rfl⟩).1.mpr
    (by decide)

/-- C2 counterexample: two consecutive final events whose texts have
the same trimmed form both append, because the recognized handler
stores the raw untrimmed text for the duplicate comparison: after two
finals carrying " a ", the transcript holds two entries, not one. -/
theorem final_duplicate_not_suppressed :
    (run [Event.start 0 StartOutcome.success, Event.final " a " 1,
        Event.final " a " 2]).transcript.map TranscriptItem.text = [" a ", " a "] ∧
    (run [Event.start 0 StartOutcome.success, Event.final " a " 1,
        Event.final " a " 2]).transcript.length = 2 := by decide

/-- C2 amended: a qualifying final event (non-empty text whose
trimmed form differs from the stored last committed text) appends
exactly one entry and stores the raw, untrimmed text as the last
committed text; an immediately following final whose trimmed text
equals that stored raw text is suppressed.  Consecutive duplicates
with the same trimmed text are therefore suppressed exactly when the
second trims to the raw text of the first, in particular whenever the
first carries no surrounding whitespace. -/
theorem final_append_and_suppress (s : TranslatorState) (t t2 : String) (n n2 : Nat)
    (hq : t ≠ "" ∧ jsTrim t ≠ s.lastCommittedTextRef) :
    (onRecognized t n s).transcript = s.transcript ++ [{ id := n, timestamp := n, text := t }] ∧
    (onRecognized t n s).lastCommittedTextRef = t ∧
    (onRecognized t n s).lastCommitted = t ∧
    (jsTrim t2 = t → onRecognized t2 n2 (onRecognized t n s) = onRecognized t n s) := by
  refine ⟨?_, ?_, ?_, fun h2 => ?_⟩
  · simp only [onRecognized, if_pos hq]
  · simp only [onRecognized, if_pos hq]
  · simp only [onRecognized, if_pos hq]
  · have href : (onRecognized t n s).lastCommittedTextRef = t := by
      simp only [onRecognized, if_pos hq]
    have hneg : ¬ (t2 ≠ "" ∧ jsTrim t2 ≠ (onRecognized t n s).lastCommittedTextRef) := by
      rw [href]
      intro hx
      exact hx.2 h2
    exact onRecognized_skip t2 n2 (onRecognized t n s) hneg

/-- C2 amended witness: a final "hello" appends; the following final
"hello " trims to the stored text and is suppressed, leaving one
entry. -/
theorem final_append_and_suppress_witness :
    (onRecognized "hello " 2 (onRecognized "hello" 1 initState)).transcript.length = 1 := by
  have h := final_append_and_suppress initState "hello" "hello " 1 2 (by decide)
  rw [h.2.2.2 (by decide), h.1]
  decide

/-- C3 counterexample: clearTranscript also clears the live interim
line.  In the reachable state where the live line is "foo", calling
clearTranscript leaves interimText empty, not "foo". -/
theorem clearTranscript_clears_interim :
    (run [Event.start 0 StartOutcome.success, Event.interim "foo" 10]).interimText = "foo" ∧
    (clearTranscript (run [Event.start 0 StartOutcome.success,
        Event.interim "foo" 10])).interimText = "" := by decide

/-- C3 amended: clearTranscript empties the transcript, resets both
last-committed fields, and also clears the live interim line and its
ref; the status, the error message and the latency sample are
unchanged. -/
theorem clearTranscript_effect (s : TranslatorState) :
    (clearTranscript s).transcript = [] ∧
    (clearTranscript s).lastCommitted = "" ∧
    (clearTranscript s).lastCommittedTextRef = "" ∧
    (clearTranscript s).interimText = "" ∧
    (clearTranscript s).currentInterim = "" ∧
    (clearTranscript s).status = s.status ∧
    (clearTranscript s).errorMessage = s.errorMessage ∧
    (clearTranscript s).latencyMs = s.latencyMs :=
  ⟨rfl, rfl, rfl, rfl, rfl, rfl, rfl, rfl⟩

/-- C4 counterexample: on cancellation with an error reason during an
active session the status becomes Idle, not Error, because the
canceled handler runs stopTranslator after recording the message. -/
theorem canceled_error_not_error_status :
    (run [Event.start 0 StartOutcome.success, Event.interim "foo" 10,
        Event.canceled true "boom"]).status = TranslatorStatus.Idle ∧
    (run [Event.start 0 StartOutcome.success, Event.interim "foo" 10,
        Event.canceled true "boom"]).status ≠ TranslatorStatus.Error ∧
    (run [Event.start 0 StartOutcome.success, Event.interim "foo" 10,
        Event.canceled true "boom"]).errorMessage = some "Speech Error: boom" := by decide

/-- C4 amended: when the Speech Collaborator signals cancellation with
an error reason during an active session, a human-readable error
message is recorded and the implicit stop runs: the status becomes
Idle, the in-flight live line is discarded without being committed
(the transcript is unchanged), and the poll timer is cancelled. -/
theorem canceled_error_effect (s : TranslatorState) (details : String)
    (h : s.recognizerActive = true) :
    (step (Event.canceled true details) s).errorMessage =
      some ("Speech Error: " ++ details) ∧
    (step (Event.canceled true details) s).status = TranslatorStatus.Idle ∧
    (step (Event.canceled true details) s).interimText = "" ∧
    (step (Event.canceled true details) s).transcript = s.transcript ∧
    (step (Event.canceled true details) s).timerActive = false := by
  simp [step, h, onCanceled, stopTranslator, cleanupRecognizer]

/-- C4 amended witness: cancellation with reason "boom" in the active
state reached by a successful start. -/
theorem canceled_error_effect_witness :
    (step (Event.canceled true "boom") (run [Event.start 0 StartOutcome.success])).status =
      TranslatorStatus.Idle :=
  (canceled_error_effect (run [Event.start 0 StartOutcome.success]) "boom" (by decide)).2.1

/-- C5: the transcript is append-only: every step of the engine
either leaves the transcript unchanged, appends exactly one new entry
at its end (a final event or a silence commit), or empties the whole
sequence (clearTranscript); no step mutates or removes an individual
entry. -/
theorem transcript_append_only (e : Event) (s : TranslatorState) :
    (step e s).transcript = s.transcript ∨
    (∃ item, (step e s).transcript = s.transcript ++ [item]) ∨
    (step e s).transcript = [] := by
  cases e <;>
    simp only [step, startTranslator, onRecognizing, onRecognized, onCanceled, stopTranslator,
      cleanupRecognizer, checkSilence, clearTranscript, resetError] <;>
    (try split_ifs) <;>
    (first
      | exact Or.inl rfl
      | exact Or.inl trivial
      | exact Or.inr (Or.inr rfl)
      | exact Or.inr (Or.inr trivial)
      | exact Or.inr (Or.inl ⟨_, rfl⟩))

/-- The lastEventTime field written by a non-skipped interim event. -/
theorem onRecognizing_lastEventTime (t : String) (now : Nat) (s : TranslatorState)
    (h : t ≠ "") : (onRecognizing t now s).lastEventTime = now := by
  simp only [onRecognizing, if_neg h]

/-- The latency sample written by a non-skipped interim event when a
previous event timestamp exists. -/
theorem onRecognizing_latencyMs (t : String) (now : Nat) (s : TranslatorState)
    (h : t ≠ "") (hpos : 0 < s.lastEventTime) :
    (onRecognizing t now s).latencyMs =
      if 50 ≤ now - s.lastEventTime ∧ now - s.lastEventTime ≤ 2000 then
        some (now - s.lastEventTime)
      else s.latencyMs := by
  simp only [onRecognizing, if_neg h, if_pos hpos]
  split_ifs <;> rfl

/-- C6: for two consecutive interim events, the latency sample is the
inter-arrival delta exactly when the delta lies in the inclusive range
50 to 2000 ms; a delta outside the range leaves the sample as it was,
so no sample is produced. -/
theorem interim_latency_sample (s : TranslatorState) (t1 t2 : String) (n1 n2 : Nat)
    (h1 : t1 ≠ "") (h2 : t2 ≠ "") (hpos : 0 < n1) :
    (onRecognizing t2 n2 (onRecognizing t1 n1 s)).latencyMs =
      if 50 ≤ n2 - n1 ∧ n2 - n1 ≤ 2000 then some (n2 - n1)
      else (onRecognizing t1 n1 s).latencyMs := by
  have e1 : (onRecognizing t1 n1 s).lastEventTime = n1 :=
    onRecognizing_lastEventTime t1 n1 s h1
  have e2 := onRecognizing_latencyMs t2 n2 (onRecognizing t1 n1 s) h2 (by rw [e1]; exact hpos)
  rw [e2, e1]

/-- C6 witness: interim events at clocks 100 and 500 give the sample
400; a 30 ms and a 3000 ms delta leave the sample untouched. -/
theorem interim_latency_sample_witness :
    (onRecognizing "b" 500 (onRecognizing "a" 100 initState)).latencyMs = some 400 ∧
    (onRecognizing "b" 130 (onRecognizing "a" 100 initState)).latencyMs = none ∧
    (onRecognizing "b" 3100 (onRecognizing "a" 100 initState)).latencyMs = none := by
  refine ⟨?_, ?_, ?_⟩
  · rw [interim_latency_sample initState "a" "b" 100 500 (by decide) (by decide) (by decide)]
    decide
  · rw [interim_latency_sample initState "a" "b" 100 130 (by decide) (by decide) (by decide)]
    decide
  · rw [interim_latency_sample initState "a" "b" 100 3100 (by decide) (by decide) (by decide)]
    decide

/-- C7: in every reachable state the poll timer is scheduled exactly
while the status is Listening or Translating; after stop the timer is
cancelled, and no later poll tick has any effect, including after the
implicit stop performed by cancellation with an error reason. -/
theorem silence_poll_lifecycle (s : TranslatorState) (h : Reachable s) :
    s.timerActive = isActiveStatus s.status ∧
    (step Event.stop s).timerActive = false ∧
    (∀ now, step (Event.poll now) (step Event.stop s) = step Event.stop s) ∧
    (∀ details now, step (Event.poll now) (step (Event.canceled true details) s) =
      step (Event.canceled true details) s) := by
  obtain ⟨h1, h2, _h3, _h4⟩ := reachable_inv s h
  refine ⟨h1, rfl, fun now => ?_, fun details now => ?_⟩
  · simp [step, stopTranslator, cleanupRecognizer]
  · by_cases hr : s.recognizerActive = true
    · simp [step, hr, onCanceled, stopTranslator, cleanupRecognizer]
    · have hb : s.recognizerActive = false := by
        cases hv : s.recognizerActive
        · rfl
        · exact absurd hv hr
      have ht : s.timerActive = false := by rw [h1, h2 hb]
      simp [step, hr, ht]

/-- C7 witness: from the initial state, after stop no poll tick at
clock 1000 changes anything. -/
theorem silence_poll_lifecycle_witness :
    (step Event.stop initState).timerActive = false ∧
    step (Event.poll 1000) (step Event.stop initState) = step Event.stop initState :=
  ⟨(silence_poll_lifecycle initState ⟨[], rfl⟩).2.1,
   (silence_poll_lifecycle initState ⟨[], rfl⟩).2.2.1 1000⟩

/-- C8 counterexample: entry ids are the Date.now reading at commit
time, so two commits in the same millisecond share an id: two distinct
final events both timestamped 5 yield the ids 5 and 5, which are not
pairwise distinct. -/
theorem transcript_ids_collide :
    ((run [Event.start 0 StartOutcome.success, Event.final "a" 5,
        Event.final "b" 5]).transcript.map TranscriptItem.id) = [5, 5] ∧
    ¬ ((run [Event.start 0 StartOutcome.success, Event.final "a" 5,
        Event.final "b" 5]).transcript.map TranscriptItem.id).Nodup := by decide

/-- Each step either keeps the id sequence, extends it with the clock
reading of the event, or empties it. -/
theorem step_transcript_ids (e : Event) (s : TranslatorState) :
    ((step e s).transcript.map TranscriptItem.id) = s.transcript.map TranscriptItem.id ∨
    ((step e s).transcript.map TranscriptItem.id) =
      s.transcript.map TranscriptItem.id ++ eventTimes e ∨
    ((step e s).transcript.map TranscriptItem.id) = [] := by
  cases e <;>
    simp only [step, startTranslator, onRecognizing, onRecognized, onCanceled, stopTranslator,
      cleanupRecognizer, checkSilence, clearTranscript, resetError, eventTimes] <;>
    (try split_ifs) <;>
    simp

/-- Running a trace whose clock readings avoid the ids already present
keeps the id sequence free of duplicates. -/
theorem ids_nodup_runFrom (tr : List Event) (s : TranslatorState)
    (h : ((s.transcript.map TranscriptItem.id) ++ traceTimes tr).Nodup) :
    ((runFrom s tr).transcript.map TranscriptItem.id).Nodup := by
  induction tr generalizing s with
  | nil => simpa [traceTimes] using h
  | cons e tr ih =>
    have htr : traceTimes (e :: tr) = eventTimes e ++ traceTimes tr := by
      simp [traceTimes]
    rw [htr] at h
    apply ih
    rcases step_transcript_ids e s with hid | hid | hid
    · rw [hid]
      exact h.sublist
        ((List.sublist_append_right (eventTimes e) (traceTimes tr)).append_left _)
    · rw [hid, List.append_assoc]
      exact h
    · rw [hid, List.nil_append]
      exact h.sublist ((List.sublist_append_right (eventTimes e) (traceTimes tr)).trans
        (List.sublist_append_right _ _))

/-- C8 amended: entry ids are the clock readings at commit time;
whenever the clock readings of a trace are pairwise distinct, the ids
of the resulting transcript are pairwise distinct, but two commits
within the same millisecond share an id. -/
theorem transcript_ids_nodup (tr : List Event) (h : (traceTimes tr).Nodup) :
    ((run tr).transcript.map TranscriptItem.id).Nodup := by
  apply ids_nodup_runFrom
  simpa [initState] using h

/-- C8 amended witness: a trace with distinct clock readings yields
distinct ids. -/
theorem transcript_ids_nodup_witness :
    ((run [Event.start 0 StartOutcome.success, Event.final "a" 5,
        Event.final "b" 6]).transcript.map TranscriptItem.id).Nodup :=
  transcript_ids_nodup
    [Event.start 0 StartOutcome.success, Event.final "a" 5, Event.final "b" 6] (by decide)

/-- C9: starting while a recognizer is already owned is a no-op: the
whole state, transcript and live line included, is returned
unchanged, so at most one session is active at a time. -/
theorem start_noop_when_active (s : TranslatorState) (h : s.recognizerActive = true)
    (now : Nat) (o : StartOutcome) :
    step (Event.start now o) s = s := by
  simp [step, startTranslator, h]

/-- C9 witness: a second start during the session opened by a
successful start changes nothing. -/
theorem start_noop_when_active_witness :
    step (Event.start 5 StartOutcome.success) (run [Event.start 0 StartOutcome.success]) =
      run [Event.start 0 StartOutcome.success] :=
  start_noop_when_active (run [Event.start 0 StartOutcome.success]) (by decide) 5
    StartOutcome.success

/-- C10: stop resets the previous event timestamp to zero and clears
the latency sample; consequently the first interim event of any
session (a successful start from a state without an owned recognizer)
produces no latency sample. -/
theorem first_interim_no_latency (s : TranslatorState) (h : Reachable s)
    (hrec : s.recognizerActive = false) (t : String) (n0 n1 : Nat) :
    (step Event.stop s).lastEventTime = 0 ∧
    (step Event.stop s).latencyMs = none ∧
    (step (Event.interim t n1) (step (Event.start n0 StartOutcome.success) s)).latencyMs =
      none := by
  obtain ⟨_h1, _h2, h3, _h4⟩ := reachable_inv s h
  obtain ⟨hle, hlm⟩ := h3 hrec
  refine ⟨rfl, rfl, ?_⟩
  by_cases ht : t = ""
  · subst ht
    simp [step, startTranslator, hrec, onRecognizing, hlm]
  · simp [step, startTranslator, hrec, onRecognizing, ht, hle, hlm]

/-- C10 witness: the first interim of the first session, arriving at
clock 50, leaves the latency sample empty. -/
theorem first_interim_no_latency_witness :
    (step (Event.interim "hi" 50) (step (Event.start 0 StartOutcome.success)
      initState)).latencyMs = none :=
  (first_interim_no_latency initState ⟨[], rfl⟩ (by decide) "hi" 0 50).2.2

end RTMT
